import Mathlib

/-!
# Verification development for `scoring_api_gateway`

A shallow embedding, in Lean 4, of the data model and operations of the
`scoring_api_gateway` repository: the content-addressed data cache
(migration `004_add_data_cache.sql` and `internal/repository/cache.go`),
the verification service (`internal/service/service.go`), the pagination
in the repository (`GetAll`), and the NATS completion-notification
subscriber (`internal/messaging/nats.go` together with the handler wired
in `main.go`).

Go machine integers that matter here are small (string lengths, limits)
and are modelled as `Nat`/`Int`; byte strings are `List Nat` with each
element `< 256`; fallible Go calls returning `(T, error)` are modelled
as `Except String T` carrying the exact `fmt.Errorf` message text.
-/

namespace ScoringGateway

/-! ## SHA-256

The cache key is computed by PostgreSQL's
`encode(digest(payload::text, 'sha256'), 'hex')` in migration
`004_add_data_cache.sql`.  `digest(·, 'sha256')` is the standard SHA-256
function (FIPS 180-4); it is an external collaborator of the repository,
embedded here executably so that hashes of concrete payloads evaluate
inside Lean.  Words are `Nat` reduced mod `2^32` at every step. -/

/-- Truncate a natural number to a 32-bit word. -/
def w32 (n : Nat) : Nat := n % 4294967296

/-- Right-rotation of a 32-bit word (input assumed `< 2^32`). -/
def rotr (n x : Nat) : Nat := w32 ((x >>> n) ||| (x <<< (32 - n)))

/-- Bitwise complement of a 32-bit word. -/
def not32 (x : Nat) : Nat := x ^^^ 4294967295

/-- The 64 SHA-256 round constants (fractional parts of cube roots of the
first 64 primes). -/
def sha256K : List Nat :=
  [1116352408, 1899447441, 3049323471, 3921009573, 961987163,
   1508970993, 2453635748, 2870763221, 3624381080, 310598401,
   607225278, 1426881987, 1925078388, 2162078206, 2614888103,
   3248222580, 3835390401, 4022224774, 264347078, 604807628,
   770255983, 1249150122, 1555081692, 1996064986, 2554220882,
   2821834349, 2952996808, 3210313671, 3336571891, 3584528711,
   113926993, 338241895, 666307205, 773529912, 1294757372,
   1396182291, 1695183700, 1986661051, 2177026350, 2456956037,
   2730485921, 2820302411, 3259730800, 3345764771, 3516065817,
   3600352804, 4094571909, 275423344, 430227734, 506948616,
   659060556, 883997877, 958139571, 1322822218, 1537002063,
   1747873779, 1955562222, 2024104815, 2227730452, 2361852424,
   2428436474, 2756734187, 3204031479, 3329325298]

/-- The initial SHA-256 hash state (fractional parts of square roots of
the first 8 primes). -/
def sha256H0 : Nat × Nat × Nat × Nat × Nat × Nat × Nat × Nat :=
  (1779033703, 3144134277, 1013904242, 2773480762,
   1359893119, 2600822924, 528734635, 1541459225)

/-- SHA-256 padding: append `0x80`, then zeros, then the bit length as a
64-bit big-endian integer, reaching a multiple of 64 bytes. -/
def sha256pad (msg : List Nat) : List Nat :=
  let L := msg.length
  let k := (119 - L % 64) % 64
  msg ++ [0x80] ++ List.replicate k 0 ++
    (List.range 8).map (fun i => ((8 * L) >>> (8 * (7 - i))) % 256)

/-- Split a byte list into 64-byte blocks (structural recursion on a
fuel bound; each step consumes at least one byte, so `l.length` fuel
always suffices). -/
def chunksGo : Nat → List Nat → List (List Nat)
  | 0, _ => []
  | _, [] => []
  | fuel + 1, a :: l => (a :: l).take 64 :: chunksGo fuel ((a :: l).drop 64)

/-- Split a byte list into 64-byte blocks. -/
def chunks64 (l : List Nat) : List (List Nat) := chunksGo l.length l

/-- Read four bytes as one big-endian 32-bit word. -/
def word32At (block : List Nat) (i : Nat) : Nat :=
  block.getD (4 * i) 0 * 16777216 + block.getD (4 * i + 1) 0 * 65536 +
    block.getD (4 * i + 2) 0 * 256 + block.getD (4 * i + 3) 0

/-- The 64-entry message schedule of one 64-byte block. -/
def sha256schedule (block : List Nat) : Array Nat :=
  let w0 := ((List.range 16).map (word32At block)).toArray
  (List.range 48).foldl
    (fun ws i =>
      let j := i + 16
      let x := ws.getD (j - 15) 0
      let y := ws.getD (j - 2) 0
      let s0 := rotr 7 x ^^^ rotr 18 x ^^^ (x >>> 3)
      let s1 := rotr 17 y ^^^ rotr 19 y ^^^ (y >>> 10)
      ws.push (w32 (ws.getD (j - 16) 0 + s0 + ws.getD (j - 7) 0 + s1)))
    w0

/-- One round of the SHA-256 compression function. -/
def sha256round (ws : Array Nat) (st : Nat × Nat × Nat × Nat × Nat × Nat × Nat × Nat)
    (i : Nat) : Nat × Nat × Nat × Nat × Nat × Nat × Nat × Nat :=
  let (a, b, c, d, e, f, g, h) := st
  let S1 := rotr 6 e ^^^ rotr 11 e ^^^ rotr 25 e
  let ch := (e &&& f) ^^^ (not32 e &&& g)
  let t1 := w32 (h + S1 + ch + (sha256K.getD i 0) + ws.getD i 0)
  let S0 := rotr 2 a ^^^ rotr 13 a ^^^ rotr 22 a
  let mj := (a &&& b) ^^^ (a &&& c) ^^^ (b &&& c)
  let t2 := w32 (S0 + mj)
  (w32 (t1 + t2), a, b, c, w32 (d + t1), e, f, g)

/-- Process one 64-byte block, updating the running hash state. -/
def sha256block (st : Nat × Nat × Nat × Nat × Nat × Nat × Nat × Nat)
    (block : List Nat) : Nat × Nat × Nat × Nat × Nat × Nat × Nat × Nat :=
  let ws := sha256schedule block
  let (a, b, c, d, e, f, g, h) := (List.range 64).foldl (sha256round ws) st
  let (a0, b0, c0, d0, e0, f0, g0, h0) := st
  (w32 (a0 + a), w32 (b0 + b), w32 (c0 + c), w32 (d0 + d),
   w32 (e0 + e), w32 (f0 + f), w32 (g0 + g), w32 (h0 + h))

/-- One lowercase hexadecimal digit. -/
def hexDigit (n : Nat) : Char :=
  if n < 10 then Char.ofNat (48 + n) else Char.ofNat (87 + n)

/-- A 32-bit word as eight lowercase hex characters (big-endian). -/
def word32hex (n : Nat) : List Char :=
  (List.range 8).map (fun i => hexDigit ((n >>> (4 * (7 - i))) % 16))

/-- SHA-256 of a byte string, as the usual 64-character lowercase hex
digest (the output of `encode(digest(·, 'sha256'), 'hex')`). -/
def sha256hex (msg : List Nat) : String :=
  let (a, b, c, d, e, f, g, h) := (chunks64 (sha256pad msg)).foldl sha256block sha256H0
  String.mk (word32hex a ++ word32hex b ++ word32hex c ++ word32hex d ++
    word32hex e ++ word32hex f ++ word32hex g ++ word32hex h)

/-- UTF-8 encoding of one code point (the standard encoding Go and
PostgreSQL use for string bytes). -/
def utf8Bytes (c : Nat) : List Nat :=
  if c < 0x80 then [c]
  else if c < 0x800 then
    [0xC0 ||| (c >>> 6), 0x80 ||| (c &&& 0x3F)]
  else if c < 0x10000 then
    [0xE0 ||| (c >>> 12), 0x80 ||| ((c >>> 6) &&& 0x3F), 0x80 ||| (c &&& 0x3F)]
  else
    [0xF0 ||| (c >>> 18), 0x80 ||| ((c >>> 12) &&& 0x3F),
     0x80 ||| ((c >>> 6) &&& 0x3F), 0x80 ||| (c &&& 0x3F)]

/-- The UTF-8 bytes of a string, as `Nat`s (Go's `[]byte(s)`). -/
def strBytes (s : String) : List Nat :=
  s.data.foldr (fun c acc => utf8Bytes c.toNat ++ acc) []

/-- The content hash of a payload string: hex-encoded SHA-256 of its
exact bytes, exactly as migration 004 computes
`encode(digest(rec.data::text, 'sha256'), 'hex')`. -/
def contentHash (payload : String) : String := sha256hex (strBytes payload)

/-! ## Content Cache Store

`verification_data_cache(id, data_hash UNIQUE, data, created_at)` from
migration 004, modelled as a list of rows.  The row `id`/`created_at`
columns play no role in any claim and are omitted from the row model.  -/

/-- One row of `verification_data_cache`: a payload keyed by its
content hash (`data_hash` carries a `UNIQUE` constraint). -/
structure CacheEntry where
  dataHash : String
  data : String
deriving DecidableEq, Repr

/-- The `UNIQUE (data_hash)` constraint of `verification_data_cache`:
no two rows share a hash. -/
def cacheUnique (cache : List CacheEntry) : Prop :=
  cache.Pairwise (fun a b => a.dataHash ≠ b.dataHash)

instance (cache : List CacheEntry) : Decidable (cacheUnique cache) := by
  unfold cacheUnique; infer_instance

/-- Number of stored rows whose hash is `h`. -/
def countHash (cache : List CacheEntry) (h : String) : Nat :=
  cache.countP (fun e => e.dataHash = h)

/-- `Put`: the cache insert of migration 004 —
`computed_hash := encode(digest(data, 'sha256'), 'hex');`
`INSERT INTO verification_data_cache (data_hash, data) VALUES (computed_hash, data) ON CONFLICT (data_hash) DO NOTHING;`
returning the computed hash. -/
def cachePut (cache : List CacheEntry) (payload : String) :
    List CacheEntry × String :=
  let h := contentHash payload
  if cache.any (fun e => e.dataHash = h) then (cache, h)
  else (cache ++ [{ dataHash := h, data := payload }], h)

/-- `DataCacheRepository.GetDataByHash` from
`internal/repository/cache.go`:
`SELECT data FROM verification_data_cache WHERE data_hash = $1`, wrapping
a miss into the error
`"data not found in cache for hash %s: %w"` (the wrapped driver error is
dropped from the model; only the repository's own message text matters
to the claims). -/
def GetDataByHash (cache : List CacheEntry) (hash : String) :
    Except String String :=
  match cache.find? (fun e => e.dataHash = hash) with
  | some e => .ok e.data
  | none => .error ("data not found in cache for hash " ++ hash)

/-! ## Data model

`graph/model` (generated by gqlgen from `graph/schema.graphqls`), and
row models for the `verifications` / `verification_data` tables. -/

/-- `model.VerificationStatus` is a Go string type; any string converts
into it (the subscriber casts `model.VerificationStatus(msg.Status)`
unchecked), so it is modelled as `String`.  The declared enum values are
IN_PROCESS, PROCESSING, COMPLETED, ERROR, COMPANY_NOT_FOUND. -/
abbrev VerificationStatus := String

/-- `model.VerificationStatusInProcess`. -/
def VerificationStatusInProcess : VerificationStatus := "IN_PROCESS"

/-- `model.VerificationStatusCompleted`. -/
def VerificationStatusCompleted : VerificationStatus := "COMPLETED"

/-- `model.VerificationDataType` is likewise a Go string type with the
declared enum values BASIC_INFORMATION, ACTIVITIES,
ADDRESSES_BY_CREDINFORM, ADDRESSES_BY_UNIFIED_STATE_REGISTER,
AFFILIATED_COMPANIES, ARBITRAGE_STATISTICS. -/
abbrev VerificationDataType := String

/-- `model.VerificationDataTypeBasicInformation`. -/
def VerificationDataTypeBasicInformation : VerificationDataType :=
  "BASIC_INFORMATION"

/-- `model.VerificationData` (gqlgen model). -/
structure VerificationData where
  dataType : VerificationDataType
  data : String
  createdAt : String
deriving DecidableEq, Repr

/-- `model.Verification` (gqlgen model).  Go zero values: `""` for
strings, `nil` (`none`) for `*string`, `nil` (`[]`) for slices. -/
structure Verification where
  id : String
  inn : String
  status : VerificationStatus
  authorEmail : String
  companyID : Option String
  requestedDataTypes : List VerificationDataType
  data : List VerificationData
  createdAt : String
  updatedAt : String
deriving DecidableEq, Repr

/-- A row of the `verifications` table (timestamps as abstract instants,
`Nat`, which is what `ORDER BY created_at` compares). -/
structure VerificationRow where
  id : String
  inn : String
  status : String
  authorEmail : String
  companyID : Option String
  requestedDataTypes : List String
  createdAt : Nat
  updatedAt : Nat
deriving DecidableEq, Repr

/-- A row of the `verification_data` table after migration 005
(`id`, `verification_id`, `data_type`, `data_hash`, `created_at`, with
`UNIQUE (verification_id, data_type)`). -/
structure DataRecordRow where
  verificationID : String
  dataType : String
  dataHash : String
  createdAt : Nat
deriving DecidableEq, Repr

/-- The persistent store visible to the gateway: the three tables of
§6 of the spec. -/
structure Store where
  verifications : List VerificationRow
  dataRecords : List DataRecordRow
  cache : List CacheEntry
deriving DecidableEq, Repr

/-! ## Verification repository

`internal/repository/repository.go`. -/

/-- `ORDER BY created_at DESC`: row `a` precedes row `b` when `a` was
created no earlier than `b`. -/
def descByCreated (a b : VerificationRow) : Prop := b.createdAt ≤ a.createdAt

instance : DecidableRel descByCreated := fun _ _ => Nat.decLe _ _

instance : IsTotal VerificationRow descByCreated :=
  ⟨fun a b => Nat.le_total b.createdAt a.createdAt⟩

instance : IsTrans VerificationRow descByCreated :=
  ⟨fun _ _ _ h1 h2 => Nat.le_trans h2 h1⟩

/-- `ORDER BY created_at` (ascending) on `verification_data` rows. -/
def ascByCreated (a b : DataRecordRow) : Prop := a.createdAt ≤ b.createdAt

instance : DecidableRel ascByCreated := fun _ _ => Nat.decLe _ _

instance : IsTotal DataRecordRow ascByCreated :=
  ⟨fun a b => Nat.le_total a.createdAt b.createdAt⟩

instance : IsTrans DataRecordRow ascByCreated :=
  ⟨fun _ _ _ h1 h2 => Nat.le_trans h1 h2⟩

/-- `verificationRepository.GetAll`:
`SELECT ... FROM verifications ORDER BY created_at DESC`, with
`LIMIT %d`, `OFFSET %d`, or `LIMIT %d OFFSET %d` appended exactly when
the corresponding pointer argument is non-nil.  The SQL result is the
sorted table with `OFFSET` rows dropped and then at most `LIMIT` rows
taken. -/
def VerificationRepository.GetAll (store : List VerificationRow)
    (limit offset : Option Int) : List VerificationRow :=
  let sorted := List.insertionSort descByCreated store
  match limit, offset with
  | some l, some o => (sorted.drop o.toNat).take l.toNat
  | some l, none => sorted.take l.toNat
  | none, some o => sorted.drop o.toNat
  | none, none => sorted

/-- Modelled from the spec: the data-record resolution of the
cache-aware `VerificationRepository` (the three-argument
`NewVerificationRepository(db, cacheRepo, log)` that `main.go` calls) is
not under `src/` — `src/` holds only its caller (`main.go`), its cache
collaborator (`GetDataByHash`), and a stale pre-cache copy whose query
still reads the `data` column that migration 005 drops.  Per §4.2 of the
spec, `ListByVerification` resolves every `DataRecord` of the
verification through the Cache Store, ordered by creation time
ascending; a hash that does not resolve is logged and skipped while
retrieval of the remaining items continues. -/
def listResolve (cache : List CacheEntry) :
    List DataRecordRow → List VerificationData
  | [] => []
  | r :: rest =>
    match GetDataByHash cache r.dataHash with
    | .ok d =>
        { dataType := r.dataType, data := d, createdAt := toString r.createdAt } ::
          listResolve cache rest
    | .error _ => listResolve cache rest

/-- Modelled from the spec: `ListByVerification` — the verification's
`verification_data` rows, ordered by `created_at` ascending, resolved
through the cache with unresolvable hashes skipped. -/
def ListByVerification (st : Store) (verificationID : String) :
    List VerificationData :=
  listResolve st.cache
    (List.insertionSort ascByCreated
      (st.dataRecords.filter (fun r => r.verificationID = verificationID)))

/-- `verificationRepository.GetByID`, row-lookup part:
`SELECT ... FROM verifications WHERE id = $1`; `pgx.ErrNoRows` is mapped
to a nil result.  The attached data list is resolved per
`ListByVerification` (see its doc comment for what is spec-modelled). -/
def VerificationRepository.GetByID (st : Store) (id : String) :
    Option (VerificationRow × List VerificationData) :=
  (st.verifications.find? (fun v => v.id = id)).map
    (fun v => (v, ListByVerification st id))

/-! ## Verification service

`internal/service/service.go`.  The service holds no state of its own;
the repository outcome of a fallible call is passed in explicitly
(`Except` models Go's `(T, error)` returns, a database failure being an
`.error`). -/

/-- `verificationService.CreateVerification`.  `newID` stands for the
`uuid.New().String()` draw and `publish` for
`s.nats.PublishVerificationRequest`; the store is threaded through to
record that the call performs no repository write.  Go's `len(inn)`
counts bytes, hence `String.utf8ByteSize`. -/
def CreateVerification (inn : String) (requestedTypes : List VerificationDataType)
    (authorEmail : String) (newID : String)
    (publish : Verification → Except String Unit) (st : Store) :
    Except String Verification × Store :=
  if inn = "" then (.error "inn cannot be empty", st)
  else if requestedTypes.length = 0 then
    (.error "at least one data type must be requested", st)
  else if inn.utf8ByteSize ≠ 10 ∧ inn.utf8ByteSize ≠ 12 then
    (.error ("inn must be 10 or 12 digits, got " ++ toString inn.utf8ByteSize), st)
  else
    let verification : Verification :=
      { id := newID, inn := inn, status := VerificationStatusInProcess,
        authorEmail := authorEmail, companyID := none,
        requestedDataTypes := requestedTypes, data := [],
        createdAt := "", updatedAt := "" }
    match publish verification with
    | .error e =>
        (.error ("failed to publish verification request: " ++ e), st)
    | .ok _ => (.ok verification, st)

/-- A publish that succeeds (the NATS connection accepting the message). -/
def publishOk : Verification → Except String Unit := fun _ => .ok ()

/-- `verificationService.GetVerification`, over the repository outcome:
empty id is rejected, a repository error is wrapped as
`"failed to get verification: %w"`, a nil result becomes
`"verification not found: %s"`. -/
def GetVerification (id : String)
    (repoResult : Except String (Option (VerificationRow × List VerificationData))) :
    Except String (VerificationRow × List VerificationData) :=
  if id = "" then .error "verification id cannot be empty"
  else
    match repoResult with
    | .error e => .error ("failed to get verification: " ++ e)
    | .ok none => .error ("verification not found: " ++ id)
    | .ok (some v) => .ok v

/-- The offset check and repository call of
`verificationService.GetAllVerifications` (reached once the limit check
has passed). -/
def getAllCheckOffset (store : List VerificationRow)
    (limit offset : Option Int) : Except String (List VerificationRow) :=
  match offset with
  | some o =>
    if o < 0 then .error ("offset must be non-negative, got " ++ toString o)
    else .ok (VerificationRepository.GetAll store limit offset)
  | none => .ok (VerificationRepository.GetAll store limit offset)

/-- `verificationService.GetAllVerifications`: rejects a negative
`*limit`, then a negative `*offset`, then delegates to
`repo.GetAll`. -/
def GetAllVerifications (store : List VerificationRow)
    (limit offset : Option Int) : Except String (List VerificationRow) :=
  match limit with
  | some l =>
    if l < 0 then .error ("limit must be non-negative, got " ++ toString l)
    else getAllCheckOffset store limit offset
  | none => getAllCheckOffset store limit offset

/-! ## Completion-notification subscriber

`internal/messaging/nats.go`
(`SubscribeToVerificationCompleted`) together with the handler wired in
`main.go`.  `json.Unmarshal` is an external collaborator and enters as
a `decode` function from raw bytes to the message struct (`none` when
unmarshalling fails). -/

/-- `messaging.VerificationCompletedMessage`: the decoded inbound
notification `(verification_id, status)` (an optional error text the
subscriber never reads is omitted). -/
structure VerificationCompletedMessage where
  verificationID : String
  status : String
deriving DecidableEq, Repr

/-- The observable actions of the subscription callback: the error log
on an undecodable payload, the call of the injected handler, and the
processed-message info log. -/
inductive SubEvent where
  | logUnmarshalError
  | handlerInvoked (v : Verification)
  | logProcessed (id status : String)
deriving DecidableEq, Repr

/-- The `model.Verification` the subscriber constructs from a decoded
message: `&model.Verification{ID: msg.VerificationID, Status: model.VerificationStatus(msg.Status)}`
— every other field keeps its Go zero value. -/
def verificationFromCompleted (m : VerificationCompletedMessage) : Verification :=
  { id := m.verificationID, inn := "", status := m.status, authorEmail := "",
    companyID := none, requestedDataTypes := [], data := [],
    createdAt := "", updatedAt := "" }

/-- The message callback that `SubscribeToVerificationCompleted`
registers on subject `verification.completed`: unmarshal the payload
(log and return on failure), build the Verification view, invoke the
injected handler, log the processed message. -/
def onVerificationCompleted
    (decode : List Nat → Option VerificationCompletedMessage)
    (handler : Verification → Store → Store)
    (payload : List Nat) (st : Store) : Store × List SubEvent :=
  match decode payload with
  | none => (st, [SubEvent.logUnmarshalError])
  | some m =>
    let v := verificationFromCompleted m
    (handler v st,
     [SubEvent.handlerInvoked v, SubEvent.logProcessed m.verificationID m.status])

/-- The completion handler `main.go` passes to
`SubscribeToVerificationCompleted`: it writes an info log and nothing
else — no repository call, no store mutation. -/
def mainCompletedHandler : Verification → Store → Store := fun _ st => st

/-! ## Theorems -/

/-- The empty string has no UTF-8 bytes, so the byte-length validation
subsumes the emptiness check wherever the length is 10 or 12. -/
theorem utf8ByteSize_pos_of_ten_or_twelve (inn : String)
    (h : inn.utf8ByteSize = 10 ∨ inn.utf8ByteSize = 12) : inn ≠ "" := by
  intro he
  subst he
  simp only [show ("" : String).utf8ByteSize = 0 from rfl] at h
  omega

/-- C2: `CreateVerification` rejects with an invalid-argument error
exactly when the subject identifier (`inn`) is empty, when its byte
length is neither 10 nor 12 (citing the actual length), or when the
requested-type list is empty; on every non-empty type list and inn of
length 10 or 12 it succeeds (publish succeeding), returning the freshly
built Verification with the generated id and status `IN_PROCESS`. -/
theorem createVerification_validation
    (inn : String) (requestedTypes : List VerificationDataType)
    (authorEmail newID : String) (st : Store) :
    (((CreateVerification inn requestedTypes authorEmail newID publishOk st).1.isOk)
        ↔ ((inn.utf8ByteSize = 10 ∨ inn.utf8ByteSize = 12) ∧ requestedTypes ≠ []))
    ∧ (inn = "" →
        (CreateVerification inn requestedTypes authorEmail newID publishOk st).1
          = .error "inn cannot be empty")
    ∧ (inn ≠ "" → requestedTypes = [] →
        (CreateVerification inn requestedTypes authorEmail newID publishOk st).1
          = .error "at least one data type must be requested")
    ∧ (inn ≠ "" → requestedTypes ≠ [] →
        inn.utf8ByteSize ≠ 10 → inn.utf8ByteSize ≠ 12 →
        (CreateVerification inn requestedTypes authorEmail newID publishOk st).1
          = .error ("inn must be 10 or 12 digits, got " ++ toString inn.utf8ByteSize))
    ∧ ((inn.utf8ByteSize = 10 ∨ inn.utf8ByteSize = 12) → requestedTypes ≠ [] →
        (CreateVerification inn requestedTypes authorEmail newID publishOk st).1
          = .ok { id := newID, inn := inn, status := VerificationStatusInProcess,
                  authorEmail := authorEmail, companyID := none,
                  requestedDataTypes := requestedTypes, data := [],
                  createdAt := "", updatedAt := "" }) := by
  unfold CreateVerification publishOk
  refine ⟨?_, ?_, ?_, ?_, ?_⟩
  · constructor
    · intro h
      split_ifs at h with h1 h2 h3
      · simp [Except.isOk, Except.toBool] at h
      · simp [Except.isOk, Except.toBool] at h
      · simp [Except.isOk, Except.toBool] at h
      · push_neg at h3
        refine ⟨by omega, ?_⟩
        intro he
        subst he
        simp at h2
    · rintro ⟨h1, h2⟩
      have hne := utf8ByteSize_pos_of_ten_or_twelve inn h1
      rw [if_neg hne, if_neg (by simpa using h2), if_neg (by omega)]
      simp [Except.isOk, Except.toBool]
  · intro he
    rw [if_pos he]
  · intro hne hempty
    rw [if_neg hne, if_pos (by simp [hempty])]
  · intro hne hts h10 h12
    rw [if_neg hne, if_neg (by simpa using hts), if_pos ⟨h10, h12⟩]
  · intro hlen hts
    have hne := utf8ByteSize_pos_of_ten_or_twelve inn hlen
    rw [if_neg hne, if_neg (by simpa using hts), if_neg (by omega)]

/-- Witness for C2: the spec's own validation examples — `"123"` is
rejected citing length 3, an empty type list is rejected, and a
12-digit inn succeeds with status `IN_PROCESS`. -/
theorem createVerification_validation_witness :
    (CreateVerification "123" [VerificationDataTypeBasicInformation]
        "a@b.c" "id-1" publishOk ⟨[], [], []⟩).1
      = .error "inn must be 10 or 12 digits, got 3"
    ∧ (CreateVerification "1234567890" [] "a@b.c" "id-1" publishOk ⟨[], [], []⟩).1
      = .error "at least one data type must be requested"
    ∧ (CreateVerification "123456789012" [VerificationDataTypeBasicInformation]
        "a@b.c" "id-1" publishOk ⟨[], [], []⟩).1
      = .ok { id := "id-1", inn := "123456789012",
              status := VerificationStatusInProcess, authorEmail := "a@b.c",
              companyID := none,
              requestedDataTypes := [VerificationDataTypeBasicInformation],
              data := [], createdAt := "", updatedAt := "" } := by
  refine ⟨?_, ?_, ?_⟩
  · have h := (createVerification_validation "123"
      [VerificationDataTypeBasicInformation] "a@b.c" "id-1" ⟨[], [], []⟩).2.2.2.1
      (by decide) (by decide) (by decide) (by decide)
    simpa using h
  · exact (createVerification_validation "1234567890" [] "a@b.c" "id-1"
      ⟨[], [], []⟩).2.2.1 (by decide) rfl
  · exact (createVerification_validation "123456789012"
      [VerificationDataTypeBasicInformation] "a@b.c" "id-1" ⟨[], [], []⟩).2.2.2.2
      (by decide) (by decide)

/-- C4: when publishing the outbound creation request fails, an
otherwise-valid `CreateVerification` call returns the wrapped publish
error and the store is exactly the store the call started with — no
Verification record is left behind (indeed no execution path of
`CreateVerification` ever writes the store). -/
theorem createVerification_publish_failure_atomic
    (inn : String) (requestedTypes : List VerificationDataType)
    (authorEmail newID e : String) (st : Store)
    (hlen : inn.utf8ByteSize = 10 ∨ inn.utf8ByteSize = 12)
    (hts : requestedTypes ≠ []) :
    CreateVerification inn requestedTypes authorEmail newID
        (fun _ => .error e) st
      = (.error ("failed to publish verification request: " ++ e), st)
    ∧ ∀ publish : Verification → Except String Unit,
        (CreateVerification inn requestedTypes authorEmail newID publish st).2
          = st := by
  constructor
  · unfold CreateVerification
    have hne := utf8ByteSize_pos_of_ten_or_twelve inn hlen
    rw [if_neg hne, if_neg (by simpa using hts), if_neg (by omega)]
  · intro publish
    unfold CreateVerification
    split_ifs <;> try rfl
    simp only []
    split <;> rfl

/-- Witness for C4: a concrete creation for inn `"1234567890"` against a
publish that fails with `"nats connection failed"` (the test's failure)
returns the wrapped error and leaves the empty store empty. -/
theorem createVerification_publish_failure_atomic_witness :
    CreateVerification "1234567890" [VerificationDataTypeBasicInformation]
        "a@b.c" "id-1" (fun _ => .error "nats connection failed") ⟨[], [], []⟩
      = (.error "failed to publish verification request: nats connection failed",
         ⟨[], [], []⟩) := by
  have h := (createVerification_publish_failure_atomic "1234567890"
    [VerificationDataTypeBasicInformation] "a@b.c" "id-1"
    "nats connection failed" ⟨[], [], []⟩ (by decide) (by decide)).1
  simpa using h

/-- C10: the inn validation looks only at the byte length — any string
of length exactly 10 or 12 passes, its characters are never inspected,
and the created Verification carries the inn verbatim. -/
theorem createVerification_length_only
    (inn : String) (requestedTypes : List VerificationDataType)
    (authorEmail newID : String) (st : Store)
    (hlen : inn.utf8ByteSize = 10 ∨ inn.utf8ByteSize = 12)
    (hts : requestedTypes ≠ []) :
    (CreateVerification inn requestedTypes authorEmail newID publishOk st).1
      = .ok { id := newID, inn := inn, status := VerificationStatusInProcess,
              authorEmail := authorEmail, companyID := none,
              requestedDataTypes := requestedTypes, data := [],
              createdAt := "", updatedAt := "" } := by
  unfold CreateVerification publishOk
  have hne := utf8ByteSize_pos_of_ten_or_twelve inn hlen
  rw [if_neg hne, if_neg (by simpa using hts), if_neg (by omega)]

/-- Witness for C10: the non-numeric 10-character string
`"abcdefghij"` is accepted. -/
theorem createVerification_length_only_witness :
    (CreateVerification "abcdefghij" [VerificationDataTypeBasicInformation]
        "a@b.c" "id-1" publishOk ⟨[], [], []⟩).1
      = .ok { id := "id-1", inn := "abcdefghij",
              status := VerificationStatusInProcess, authorEmail := "a@b.c",
              companyID := none,
              requestedDataTypes := [VerificationDataTypeBasicInformation],
              data := [], createdAt := "", updatedAt := "" } :=
  createVerification_length_only "abcdefghij"
    [VerificationDataTypeBasicInformation] "a@b.c" "id-1" ⟨[], [], []⟩
    (by decide) (by decide)

/-- C6: `GetAllVerifications` rejects a negative limit or offset with an
invalid-argument error naming the offending value — and the error is the
same whatever the store holds, so the store is not consulted; when both
bounds pass, the result is ordered by creation time descending and its
rows come from the store; omitting both bounds returns every record, in
descending creation-time order. -/
theorem getAllVerifications_pagination
    (store : List VerificationRow) (limit offset : Option Int) :
    (∀ l : Int, limit = some l → l < 0 →
        GetAllVerifications store limit offset
          = .error ("limit must be non-negative, got " ++ toString l))
    ∧ (∀ o : Int, offset = some o → o < 0 → (∀ l : Int, limit = some l → 0 ≤ l) →
        GetAllVerifications store limit offset
          = .error ("offset must be non-negative, got " ++ toString o))
    ∧ ((∀ l : Int, limit = some l → 0 ≤ l) → (∀ o : Int, offset = some o → 0 ≤ o) →
        ∃ r, GetAllVerifications store limit offset = .ok r
          ∧ List.Sorted descByCreated r ∧ ∀ v ∈ r, v ∈ store)
    ∧ GetAllVerifications store none none
        = .ok (List.insertionSort descByCreated store)
    ∧ (List.insertionSort descByCreated store).Perm store := by
  have hsorted : List.Sorted descByCreated (List.insertionSort descByCreated store) :=
    List.sorted_insertionSort descByCreated store
  have hperm : (List.insertionSort descByCreated store).Perm store :=
    List.perm_insertionSort descByCreated store
  refine ⟨?_, ?_, ?_, ?_, hperm⟩
  · rintro l rfl hl
    simp only [GetAllVerifications, if_pos hl]
  · rintro o rfl ho hlim
    cases limit with
    | none => simp only [GetAllVerifications, getAllCheckOffset, if_pos ho]
    | some l =>
      have hl := hlim l rfl
      simp only [GetAllVerifications, getAllCheckOffset]
      rw [if_neg (by omega), if_pos ho]
  · intro hlim hoff
    have hresult : GetAllVerifications store limit offset
        = .ok (VerificationRepository.GetAll store limit offset) := by
      cases limit with
      | none =>
        cases offset with
        | none => rfl
        | some o =>
          simp only [GetAllVerifications, getAllCheckOffset]
          rw [if_neg (by have := hoff o rfl; omega)]
      | some l =>
        cases offset with
        | none =>
          simp only [GetAllVerifications, getAllCheckOffset]
          rw [if_neg (by have := hlim l rfl; omega)]
        | some o =>
          simp only [GetAllVerifications, getAllCheckOffset]
          rw [if_neg (by have := hlim l rfl; omega),
            if_neg (by have := hoff o rfl; omega)]
    refine ⟨VerificationRepository.GetAll store limit offset, hresult, ?_, ?_⟩
    · unfold VerificationRepository.GetAll
      match limit, offset with
      | none, none => exact hsorted
      | none, some o => exact hsorted.sublist (List.drop_sublist _ _)
      | some l, none => exact hsorted.sublist (List.take_sublist _ _)
      | some l, some o =>
        exact hsorted.sublist
          ((List.take_sublist _ _).trans (List.drop_sublist _ _))
    · intro v hv
      have hmem : v ∈ List.insertionSort descByCreated store := by
        unfold VerificationRepository.GetAll at hv
        match limit, offset with
        | none, none => exact hv
        | none, some o => exact (List.drop_sublist _ _).mem hv
        | some l, none => exact (List.take_sublist _ _).mem hv
        | some l, some o =>
          exact ((List.take_sublist _ _).trans (List.drop_sublist _ _)).mem hv
      exact hperm.mem_iff.mp hmem
  · rfl

/-- A sample older `verifications` row for concrete evaluations. -/
def sampleRowOld : VerificationRow :=
  { id := "v-old", inn := "1234567890", status := "COMPLETED",
    authorEmail := "a@b.c", companyID := none,
    requestedDataTypes := ["BASIC_INFORMATION"], createdAt := 1, updatedAt := 1 }

/-- A sample newer `verifications` row for concrete evaluations. -/
def sampleRowNew : VerificationRow :=
  { id := "v-new", inn := "123456789012", status := "IN_PROCESS",
    authorEmail := "a@b.c", companyID := none,
    requestedDataTypes := ["ACTIVITIES"], createdAt := 2, updatedAt := 2 }

/-- Witness for C6: `List(limit=-1, offset=0)` fails citing `-1`, and
`List(None, None)` returns both stored records newest-first. -/
theorem getAllVerifications_pagination_witness :
    GetAllVerifications [sampleRowOld, sampleRowNew] (some (-1)) (some 0)
      = .error "limit must be non-negative, got -1"
    ∧ GetAllVerifications [sampleRowOld, sampleRowNew] none none
      = .ok [sampleRowNew, sampleRowOld] := by
  constructor
  · exact (getAllVerifications_pagination [sampleRowOld, sampleRowNew]
      (some (-1)) (some 0)).1 (-1) rfl (by decide)
  · have h := (getAllVerifications_pagination [sampleRowOld, sampleRowNew]
      none none).2.2.2.1
    rw [h]
    exact congrArg Except.ok (by decide)

/-- Under the `UNIQUE (data_hash)` constraint every hash is stored at
most once. -/
theorem countHash_le_one (cache : List CacheEntry) (h : String)
    (hu : cacheUnique cache) : countHash cache h ≤ 1 := by
  induction cache with
  | nil => simp [countHash]
  | cons f rest ih =>
    have hu' := List.pairwise_cons.mp hu
    by_cases hf : f.dataHash = h
    · have hrest : countHash rest h = 0 := by
        unfold countHash
        rw [List.countP_eq_zero]
        intro e he
        simp only [decide_eq_true_eq]
        intro heq
        exact hu'.1 e he (hf.trans heq.symm)
      unfold countHash at hrest ⊢
      rw [List.countP_cons]
      simp [hf, hrest]
    · unfold countHash at ih ⊢
      rw [List.countP_cons]
      simpa [hf] using ih hu'.2

/-- With unique hashes, `find?` on a member's hash returns exactly that
member. -/
theorem find?_of_mem_unique (cache : List CacheEntry) (e : CacheEntry)
    (hu : cacheUnique cache) (he : e ∈ cache) :
    cache.find? (fun x => x.dataHash = e.dataHash) = some e := by
  induction cache with
  | nil => cases he
  | cons f rest ih =>
    have hu' := List.pairwise_cons.mp hu
    rcases List.mem_cons.mp he with rfl | hrest
    · simp [List.find?]
    · have hne : f.dataHash ≠ e.dataHash := hu'.1 e hrest
      have hstep := ih hu'.2 hrest
      simp [List.find?, hne, hstep]

/-- C8: the Cache Store's `Get` returns the stored payload for every
stored entry's hash, and fails with the not-found error naming the hash
for every hash for which no entry exists. -/
theorem getDataByHash_contract (cache : List CacheEntry) (h : String)
    (hu : cacheUnique cache) :
    ((∀ e ∈ cache, e.dataHash ≠ h) →
        GetDataByHash cache h
          = .error ("data not found in cache for hash " ++ h))
    ∧ (∀ e ∈ cache, GetDataByHash cache e.dataHash = .ok e.data) := by
  constructor
  · intro hnone
    unfold GetDataByHash
    have : cache.find? (fun e => e.dataHash = h) = none := by
      rw [List.find?_eq_none]
      intro e he
      simpa using hnone e he
    rw [this]
  · intro e he
    unfold GetDataByHash
    rw [find?_of_mem_unique cache e hu he]

/-- Witness for C8: a one-entry cache — the stored hash `"abc123"`
resolves to its payload, the unknown hash `"nonexistent"` fails naming
itself. -/
theorem getDataByHash_contract_witness :
    GetDataByHash [{ dataHash := "abc123", data := "payload-a" }] "abc123"
      = .ok "payload-a"
    ∧ GetDataByHash [{ dataHash := "abc123", data := "payload-a" }] "nonexistent"
      = .error "data not found in cache for hash nonexistent" := by
  constructor
  · exact (getDataByHash_contract
      [{ dataHash := "abc123", data := "payload-a" }] "abc123" (by decide)).2
      { dataHash := "abc123", data := "payload-a" } (by decide)
  · exact (getDataByHash_contract
      [{ dataHash := "abc123", data := "payload-a" }] "nonexistent" (by decide)).1
      (by decide)

/-- Unfolding `cachePut` to its two branches. -/
theorem cachePut_eq (cache : List CacheEntry) (payload : String) :
    cachePut cache payload
      = if cache.any (fun e => e.dataHash = contentHash payload)
        then (cache, contentHash payload)
        else (cache ++ [{ dataHash := contentHash payload, data := payload }],
              contentHash payload) := by
  unfold cachePut
  rfl

/-- C3: putting the same byte-identical payload into the cache twice
yields the same hash both times — the hex-encoded SHA-256 digest of the
exact payload text — the second insert is a no-op, and exactly one
cache row for that hash remains. -/
theorem cachePut_idempotent (cache : List CacheEntry) (payload : String)
    (hu : cacheUnique cache) :
    (cachePut cache payload).2 = contentHash payload
    ∧ (cachePut (cachePut cache payload).1 payload).2
        = (cachePut cache payload).2
    ∧ (cachePut (cachePut cache payload).1 payload).1
        = (cachePut cache payload).1
    ∧ countHash (cachePut cache payload).1 (contentHash payload) = 1 := by
  by_cases hany : cache.any (fun e => e.dataHash = contentHash payload)
  · rw [cachePut_eq, if_pos hany, cachePut_eq, if_pos hany]
    refine ⟨rfl, rfl, rfl, ?_⟩
    have hpos : 0 < countHash cache (contentHash payload) := by
      unfold countHash
      rw [List.countP_pos_iff]
      rcases List.any_eq_true.mp hany with ⟨e, he, hp⟩
      exact ⟨e, he, hp⟩
    have hle := countHash_le_one cache (contentHash payload) hu
    exact Nat.le_antisymm hle hpos
  · rw [cachePut_eq, if_neg hany]
    have hmem : ({ dataHash := contentHash payload, data := payload } : CacheEntry)
        ∈ cache ++ [({ dataHash := contentHash payload, data := payload } : CacheEntry)] :=
      List.mem_append_right _ (List.mem_singleton.mpr rfl)
    have hany2 : (cache ++ [({ dataHash := contentHash payload, data := payload } : CacheEntry)]).any
        (fun e => e.dataHash = contentHash payload) = true := by
      rw [List.any_eq_true]
      refine ⟨({ dataHash := contentHash payload, data := payload } : CacheEntry), hmem, ?_⟩
      simp
    rw [cachePut_eq, if_pos hany2]
    refine ⟨rfl, rfl, rfl, ?_⟩
    have hzero : countHash cache (contentHash payload) = 0 := by
      unfold countHash
      rw [List.countP_eq_zero]
      intro e he
      have := List.any_eq_false.mp (Bool.not_eq_true _ ▸ hany) e he
      simpa using this
    unfold countHash at hzero ⊢
    rw [List.countP_append, hzero]
    simp

set_option maxRecDepth 1000000 in
/-- The embedded SHA-256 agrees with the FIPS 180-4 test vector for
`"abc"`, evaluated inside the kernel. -/
theorem contentHash_abc_vector :
    contentHash "abc"
      = "ba7816bf8f01cfea414140de5dae2223b00361a396177a9cb410ff61f20015ad" := by
  decide

set_option maxRecDepth 1000000 in
/-- Witness for C3: two puts of `"acme-payload"` into an empty cache —
the returned hash actually evaluates to the SHA-256 hex digest of the
payload, the second put changes nothing, and one row is stored. -/
theorem cachePut_idempotent_witness :
    ((cachePut [] "acme-payload").2 = contentHash "acme-payload"
      ∧ (cachePut (cachePut [] "acme-payload").1 "acme-payload").2
          = (cachePut [] "acme-payload").2
      ∧ (cachePut (cachePut [] "acme-payload").1 "acme-payload").1
          = (cachePut [] "acme-payload").1
      ∧ countHash (cachePut [] "acme-payload").1 (contentHash "acme-payload") = 1)
    ∧ contentHash "acme-payload"
        = "efab0c62df6ec570229dd8a43bfb093af826a9508e1fe659bff581a557794e71" := by
  constructor
  · exact cachePut_idempotent [] "acme-payload" (by decide)
  · decide

/-- The resolution of one `verification_data` row: the resulting list
item when its hash dereferences through the cache, `none` when it
dangles. -/
def resolveRecord (cache : List CacheEntry) (r : DataRecordRow) :
    Option VerificationData :=
  match GetDataByHash cache r.dataHash with
  | .ok d =>
      some { dataType := r.dataType, data := d, createdAt := toString r.createdAt }
  | .error _ => none

/-- The resolution loop equals an order-preserving `filterMap`: items
keep their relative order and only unresolvable ones disappear. -/
theorem listResolve_eq_filterMap (cache : List CacheEntry)
    (records : List DataRecordRow) :
    listResolve cache records = records.filterMap (resolveRecord cache) := by
  induction records with
  | nil => rfl
  | cons r rest ih =>
    unfold listResolve
    cases hr : GetDataByHash cache r.dataHash with
    | ok d =>
      have hres : resolveRecord cache r
          = some { dataType := r.dataType, data := d,
                   createdAt := toString r.createdAt } := by
        unfold resolveRecord
        rw [hr]
      rw [List.filterMap_cons, hres, ih]
    | error e =>
      have hres : resolveRecord cache r = none := by
        unfold resolveRecord
        rw [hr]
      rw [List.filterMap_cons, hres, ih]

/-- C5: listing a verification's data resolves each record by
dereferencing its hash through the Cache Store, in creation-time
ascending order, as an order-preserving `filterMap` over the sorted
records; a record whose hash cannot be resolved is skipped, and every
resolvable record still appears in the result. -/
theorem listByVerification_resolves (st : Store) (vid : String) :
    (ListByVerification st vid
      = (List.insertionSort ascByCreated
          (st.dataRecords.filter (fun r => r.verificationID = vid))).filterMap
          (resolveRecord st.cache))
    ∧ List.Sorted ascByCreated
        (List.insertionSort ascByCreated
          (st.dataRecords.filter (fun r => r.verificationID = vid)))
    ∧ (∀ r ∈ st.dataRecords, r.verificationID = vid →
        ∀ d, GetDataByHash st.cache r.dataHash = .ok d →
          ({ dataType := r.dataType, data := d,
             createdAt := toString r.createdAt } : VerificationData)
            ∈ ListByVerification st vid) := by
  refine ⟨listResolve_eq_filterMap _ _, List.sorted_insertionSort _ _, ?_⟩
  intro r hr hvid d hd
  rw [ListByVerification, listResolve_eq_filterMap]
  rw [List.mem_filterMap]
  refine ⟨r, ?_, ?_⟩
  · exact (List.perm_insertionSort ascByCreated _).mem_iff.mpr
      (List.mem_filter.mpr ⟨hr, by simp [hvid]⟩)
  · unfold resolveRecord
    rw [hd]

/-- Witness for C5: a store holding one resolvable record and one
record whose hash dangles — the dangling record is skipped, the
resolvable one is returned. -/
theorem listByVerification_resolves_witness :
    ListByVerification
        ⟨[], [{ verificationID := "v1", dataType := "BASIC_INFORMATION",
                dataHash := "h-ok", createdAt := 1 },
              { verificationID := "v1", dataType := "ACTIVITIES",
                dataHash := "h-dangling", createdAt := 2 }],
         [{ dataHash := "h-ok", data := "payload-a" }]⟩ "v1"
      = [{ dataType := "BASIC_INFORMATION", data := "payload-a",
           createdAt := "1" }]
    ∧ ({ dataType := "BASIC_INFORMATION", data := "payload-a",
         createdAt := "1" } : VerificationData)
        ∈ ListByVerification
            ⟨[], [{ verificationID := "v1", dataType := "BASIC_INFORMATION",
                    dataHash := "h-ok", createdAt := 1 },
                  { verificationID := "v1", dataType := "ACTIVITIES",
                    dataHash := "h-dangling", createdAt := 2 }],
             [{ dataHash := "h-ok", data := "payload-a" }]⟩ "v1" := by
  constructor
  · have h := (listByVerification_resolves
      ⟨[], [{ verificationID := "v1", dataType := "BASIC_INFORMATION",
              dataHash := "h-ok", createdAt := 1 },
            { verificationID := "v1", dataType := "ACTIVITIES",
              dataHash := "h-dangling", createdAt := 2 }],
       [{ dataHash := "h-ok", data := "payload-a" }]⟩ "v1").1
    rw [h]
    decide
  · exact (listByVerification_resolves
      ⟨[], [{ verificationID := "v1", dataType := "BASIC_INFORMATION",
              dataHash := "h-ok", createdAt := 1 },
            { verificationID := "v1", dataType := "ACTIVITIES",
              dataHash := "h-dangling", createdAt := 2 }],
       [{ dataHash := "h-ok", data := "payload-a" }]⟩ "v1").2.2
      { verificationID := "v1", dataType := "BASIC_INFORMATION",
        dataHash := "h-ok", createdAt := 1 } (by decide) rfl
      "payload-a" rfl

/-- C7: for a non-empty id (verification ids are generated UUID strings,
never empty), `GetVerification` fails with the not-found error naming
the id when no row matches, returns the row with its resolved data list
when one does, and surfaces a repository error as the wrapped storage
error instead of mapping it to not-found. -/
theorem getVerification_contract (st : Store) (id : String) (hid : id ≠ "") :
    (st.verifications.find? (fun v => v.id = id) = none →
        GetVerification id (.ok (VerificationRepository.GetByID st id))
          = .error ("verification not found: " ++ id))
    ∧ (∀ v, st.verifications.find? (fun v => v.id = id) = some v →
        GetVerification id (.ok (VerificationRepository.GetByID st id))
          = .ok (v, ListByVerification st id))
    ∧ (∀ e : String, GetVerification id (.error e)
          = .error ("failed to get verification: " ++ e)) := by
  refine ⟨?_, ?_, ?_⟩
  · intro hnone
    unfold GetVerification VerificationRepository.GetByID
    rw [if_neg hid, hnone]
    rfl
  · intro v hv
    unfold GetVerification VerificationRepository.GetByID
    rw [if_neg hid, hv]
    rfl
  · intro e
    unfold GetVerification
    rw [if_neg hid]

/-- Witness for C7: an unknown id on an empty store fails naming the id,
a stored row is returned with its data, and a database failure surfaces
as the wrapped storage error. -/
theorem getVerification_contract_witness :
    GetVerification "missing-id"
        (.ok (VerificationRepository.GetByID ⟨[], [], []⟩ "missing-id"))
      = .error "verification not found: missing-id"
    ∧ GetVerification "v-old"
        (.ok (VerificationRepository.GetByID ⟨[sampleRowOld], [], []⟩ "v-old"))
      = .ok (sampleRowOld, [])
    ∧ GetVerification "v-old" (.error "database connection failed")
      = .error "failed to get verification: database connection failed" := by
  refine ⟨?_, ?_, ?_⟩
  · exact (getVerification_contract ⟨[], [], []⟩ "missing-id" (by decide)).1 rfl
  · have h := (getVerification_contract ⟨[sampleRowOld], [], []⟩ "v-old"
      (by decide)).2.1 sampleRowOld (by decide)
    rw [h]
    rfl
  · exact (getVerification_contract ⟨[], [], []⟩ "v-old" (by decide)).2.2
      "database connection failed"

/-- C9: when the inbound payload does not decode as a
`VerificationCompletedMessage`, the subscription callback logs the
unmarshal failure and nothing more — the store is unchanged and the
injected handler is never invoked, whatever that handler is. -/
theorem completedSubscriber_drops_malformed
    (decode : List Nat → Option VerificationCompletedMessage)
    (handler : Verification → Store → Store)
    (payload : List Nat) (st : Store)
    (hdec : decode payload = none) :
    (onVerificationCompleted decode handler payload st).1 = st
    ∧ (onVerificationCompleted decode handler payload st).2
        = [SubEvent.logUnmarshalError]
    ∧ ∀ v, SubEvent.handlerInvoked v
        ∉ (onVerificationCompleted decode handler payload st).2 := by
  unfold onVerificationCompleted
  rw [hdec]
  refine ⟨rfl, rfl, ?_⟩
  intro v hv
  simp at hv

/-- Witness for C9: the bytes `"inv"` under a decoder that rejects them
— the store survives untouched and only the error log is emitted. -/
theorem completedSubscriber_drops_malformed_witness :
    (onVerificationCompleted (fun _ => none) mainCompletedHandler
        [105, 110, 118] ⟨[], [], []⟩).1 = (⟨[], [], []⟩ : Store)
    ∧ (onVerificationCompleted (fun _ => none) mainCompletedHandler
        [105, 110, 118] ⟨[], [], []⟩).2 = [SubEvent.logUnmarshalError]
    ∧ ∀ v, SubEvent.handlerInvoked v
        ∉ (onVerificationCompleted (fun _ => none) mainCompletedHandler
            [105, 110, 118] ⟨[], [], []⟩).2 :=
  completedSubscriber_drops_malformed (fun _ => none) mainCompletedHandler
    [105, 110, 118] ⟨[], [], []⟩ rfl

/-- C1 counterexample: the store holds verification `"v-new"` with
status `IN_PROCESS`; a decodable completion notification
`(verification_id = "v-new", status = COMPLETED)` is processed by the
subscriber with the handler `main.go` registers — and the stored status
is still `IN_PROCESS`, not the carried `COMPLETED`: the claim's status
update does not happen. -/
theorem completedNotification_counterexample :
    (((onVerificationCompleted
        (fun _ => some { verificationID := "v-new",
                         status := VerificationStatusCompleted })
        mainCompletedHandler [] ⟨[sampleRowNew], [], []⟩).1.verifications.find?
        (fun v => v.id = "v-new")).map VerificationRow.status)
      = some "IN_PROCESS"
    ∧ ("IN_PROCESS" : String) ≠ "COMPLETED" := by
  decide

/-- C1 as amended: processing a decodable completion notification
changes no stored state at all — the subscriber constructs an in-memory
Verification view carrying exactly the notification's id and status
(every other field a zero value), hands it to the registered handler,
which in `main.go` only logs, and the store is returned unchanged. -/
theorem completedNotification_logs_only
    (decode : List Nat → Option VerificationCompletedMessage)
    (payload : List Nat) (m : VerificationCompletedMessage) (st : Store)
    (hdec : decode payload = some m) :
    (onVerificationCompleted decode mainCompletedHandler payload st).1 = st
    ∧ (onVerificationCompleted decode mainCompletedHandler payload st).2
        = [SubEvent.handlerInvoked (verificationFromCompleted m),
           SubEvent.logProcessed m.verificationID m.status]
    ∧ (verificationFromCompleted m).id = m.verificationID
    ∧ (verificationFromCompleted m).status = m.status
    ∧ (verificationFromCompleted m).inn = ""
    ∧ (verificationFromCompleted m).authorEmail = ""
    ∧ (verificationFromCompleted m).companyID = none
    ∧ (verificationFromCompleted m).requestedDataTypes = []
    ∧ (verificationFromCompleted m).data = [] := by
  unfold onVerificationCompleted
  rw [hdec]
  exact ⟨rfl, rfl, rfl, rfl, rfl, rfl, rfl, rfl, rfl⟩

/-- Witness for the amended C1: the concrete `COMPLETED` notification
for `"v-new"` leaves the one-row store identical and invokes the handler
on the view `(id = "v-new", status = "COMPLETED")`. -/
theorem completedNotification_logs_only_witness :
    (onVerificationCompleted
        (fun _ => some { verificationID := "v-new",
                         status := VerificationStatusCompleted })
        mainCompletedHandler [] ⟨[sampleRowNew], [], []⟩).1
      = (⟨[sampleRowNew], [], []⟩ : Store)
    ∧ (verificationFromCompleted
        { verificationID := "v-new", status := VerificationStatusCompleted }).status
      = "COMPLETED" := by
  have h := completedNotification_logs_only
    (fun _ => some { verificationID := "v-new",
                     status := VerificationStatusCompleted })
    [] { verificationID := "v-new", status := VerificationStatusCompleted }
    ⟨[sampleRowNew], [], []⟩ rfl
  exact ⟨h.1, h.2.2.2.1⟩

end ScoringGateway
